import Mathlib

/- Verification of the market-ingestor ingestion pipeline (fetch_real_marketdata.py,
apmc_scraper.py, msamb_scraper.py).

The Python sources are embedded shallowly.  HTML tokenization (BeautifulSoup) is
treated as external: every table parser below operates on the already-extracted
rows, a row being the list of its cells, a cell carrying its text and whether its
tag has a colspan attribute.  Python floats are modelled as rationals (only sign
and equality of parsed decimal literals matter to the properties considered), the
regex searches performed by the code are implemented directly as scanning
functions on character lists, and code that can raise is modelled with Except. -/

/-! ### Characters, whitespace, digits -/

def digitChar (n : Nat) : Char := Char.ofNat (48 + n)

def digVal (c : Char) : Nat := c.toNat - 48

/-- Whitespace as recognised by Python's str.strip and the regex class \s
(ASCII whitespace plus the no-break space). -/
def isWsChar (c : Char) : Bool :=
  c == ' ' || c == '\t' || c == '\n' || c == '\x0d' || c == '\x0b' || c == '\x0c' ||
    c == '\u00A0'

def trimList (l : List Char) : List Char :=
  ((l.dropWhile isWsChar).reverse.dropWhile isWsChar).reverse

/-- Python str.strip (also used for BeautifulSoup get_text with strip=True). -/
def stripStr (s : String) : String := String.mk (trimList s.data)

def alt {α : Type} (a b : Option α) : Option α :=
  match a with
  | some x => some x
  | none => b

/-! ### Regex building blocks used by parse_date_string

The three regexes of fetch_real_marketdata.parse_date_string are implemented as
scanning matchers: a search tries the pattern at every position left to right,
and quantifier alternatives are tried greedily (two digits before one), exactly
as Python's re module backtracks. -/

def sepP (cs : List Char) : Option (List Char) :=
  match cs with
  | c :: r => if c = '/' ∨ c = '-' ∨ c = '.' then some r else none
  | [] => none

def digits1 (cs : List Char) : Option (Nat × List Char) :=
  match cs with
  | c :: r => if c.isDigit then some (digVal c, r) else none
  | [] => none

def digits2 (cs : List Char) : Option (Nat × List Char) :=
  match cs with
  | a :: b :: r => if a.isDigit ∧ b.isDigit then some (10 * digVal a + digVal b, r) else none
  | _ => none

def digits4 (cs : List Char) : Option (Nat × List Char) :=
  match cs with
  | a :: b :: c :: d :: r =>
    if a.isDigit ∧ b.isDigit ∧ c.isDigit ∧ d.isDigit then
      some (1000 * digVal a + 100 * digVal b + 10 * digVal c + digVal d, r)
    else none
  | _ => none

/-! Pattern 1: (\d{1,2})[\/\-\.](\d{1,2})[\/\-\.](\d{4}) -/

def clause1Year (d m : Nat) (cs : List Char) : Option (Nat × Nat × Nat) :=
  match digits4 cs with
  | some (y, _) => some (d, m, y)
  | none => none

def clause1AfterMon (d m : Nat) (cs : List Char) : Option (Nat × Nat × Nat) :=
  match sepP cs with
  | some r => clause1Year d m r
  | none => none

def clause1Mon (d : Nat) (cs : List Char) : Option (Nat × Nat × Nat) :=
  alt (match digits2 cs with | some (m, r) => clause1AfterMon d m r | none => none)
      (match digits1 cs with | some (m, r) => clause1AfterMon d m r | none => none)

def clause1AfterDay (d : Nat) (cs : List Char) : Option (Nat × Nat × Nat) :=
  match sepP cs with
  | some r => clause1Mon d r
  | none => none

def clause1At (cs : List Char) : Option (Nat × Nat × Nat) :=
  alt (match digits2 cs with | some (d, r) => clause1AfterDay d r | none => none)
      (match digits1 cs with | some (d, r) => clause1AfterDay d r | none => none)

def search1 : List Char → Option (Nat × Nat × Nat)
  | [] => none
  | c :: r => alt (clause1At (c :: r)) (search1 r)

/-! Pattern 2: (\d{1,2})\s+([A-Za-z]{3,})\s+(\d{4}) -/

def wsP (cs : List Char) : Option (List Char) :=
  match cs with
  | c :: r => if isWsChar c then some (r.dropWhile isWsChar) else none
  | [] => none

def clause2AfterMon (d : Nat) (mon : List Char) (cs : List Char) :
    Option (Nat × List Char × Nat) :=
  match wsP cs with
  | some r =>
    match digits4 r with
    | some (y, _) => some (d, mon, y)
    | none => none
  | none => none

def clause2Mon (d : Nat) (cs : List Char) : Option (Nat × List Char × Nat) :=
  let mon := cs.takeWhile Char.isAlpha
  if 3 ≤ mon.length then clause2AfterMon d mon (cs.dropWhile Char.isAlpha) else none

def clause2AfterDay (d : Nat) (cs : List Char) : Option (Nat × List Char × Nat) :=
  match wsP cs with
  | some r => clause2Mon d r
  | none => none

def clause2At (cs : List Char) : Option (Nat × List Char × Nat) :=
  alt (match digits2 cs with | some (d, r) => clause2AfterDay d r | none => none)
      (match digits1 cs with | some (d, r) => clause2AfterDay d r | none => none)

def search2 : List Char → Option (Nat × List Char × Nat)
  | [] => none
  | c :: r => alt (clause2At (c :: r)) (search2 r)

/-! Pattern 3: (\d{1,2})[\/\-\.](\d{1,2})[\/\-\.](\d{2})\b -/

def wordBoundary (cs : List Char) : Bool :=
  match cs with
  | [] => true
  | c :: _ => !(c.isAlphanum || c == '_')

def clause3Year (d m : Nat) (cs : List Char) : Option (Nat × Nat × Nat) :=
  match digits2 cs with
  | some (y, r) => if wordBoundary r then some (d, m, y) else none
  | none => none

def clause3AfterMon (d m : Nat) (cs : List Char) : Option (Nat × Nat × Nat) :=
  match sepP cs with
  | some r => clause3Year d m r
  | none => none

def clause3Mon (d : Nat) (cs : List Char) : Option (Nat × Nat × Nat) :=
  alt (match digits2 cs with | some (m, r) => clause3AfterMon d m r | none => none)
      (match digits1 cs with | some (m, r) => clause3AfterMon d m r | none => none)

def clause3AfterDay (d : Nat) (cs : List Char) : Option (Nat × Nat × Nat) :=
  match sepP cs with
  | some r => clause3Mon d r
  | none => none

def clause3At (cs : List Char) : Option (Nat × Nat × Nat) :=
  alt (match digits2 cs with | some (d, r) => clause3AfterDay d r | none => none)
      (match digits1 cs with | some (d, r) => clause3AfterDay d r | none => none)

def search3 : List Char → Option (Nat × Nat × Nat)
  | [] => none
  | c :: r => alt (clause3At (c :: r)) (search3 r)

/-! ### Calendar arithmetic (Python datetime.date semantics) -/

def isLeap (y : Nat) : Bool := y % 4 == 0 && (y % 100 != 0 || y % 400 == 0)

def daysInMonth (y m : Nat) : Nat :=
  if m = 2 then (if isLeap y then 29 else 28)
  else if m = 4 ∨ m = 6 ∨ m = 9 ∨ m = 11 then 30
  else 31

/-- Validity of datetime.date(y, m, d): Python raises ValueError outside these bounds. -/
def validDate (y m d : Nat) : Prop :=
  1 ≤ y ∧ y ≤ 9999 ∧ 1 ≤ m ∧ m ≤ 12 ∧ 1 ≤ d ∧ d ≤ daysInMonth y m

instance (y m d : Nat) : Decidable (validDate y m d) := by
  unfold validDate
  infer_instance

def pad2 (n : Nat) : List Char := [digitChar (n / 10), digitChar (n % 10)]

def pad4 (n : Nat) : List Char :=
  [digitChar (n / 1000), digitChar (n / 100 % 10), digitChar (n / 10 % 10), digitChar (n % 10)]

/-- datetime.date(y, m, d).isoformat() for four-digit years. -/
def isoStr (y m d : Nat) : String := String.mk (pad4 y ++ '-' :: pad2 m ++ '-' :: pad2 d)

/-- A day/month/year rendered as the zero-padded DD/MM/YYYY string. -/
def fmtDMY (d m y : Nat) : String := String.mk (pad2 d ++ '/' :: pad2 m ++ '/' :: pad4 y)

/-! ### Month names for the textual clause (strptime %b and %B, case-insensitive) -/

def monthAbbrev (m : List Char) : Option Nat :=
  if m = "jan".data then some 1 else if m = "feb".data then some 2
  else if m = "mar".data then some 3 else if m = "apr".data then some 4
  else if m = "may".data then some 5 else if m = "jun".data then some 6
  else if m = "jul".data then some 7 else if m = "aug".data then some 8
  else if m = "sep".data then some 9 else if m = "oct".data then some 10
  else if m = "nov".data then some 11 else if m = "dec".data then some 12
  else none

def monthFull (m : List Char) : Option Nat :=
  if m = "january".data then some 1 else if m = "february".data then some 2
  else if m = "march".data then some 3 else if m = "april".data then some 4
  else if m = "may".data then some 5 else if m = "june".data then some 6
  else if m = "july".data then some 7 else if m = "august".data then some 8
  else if m = "september".data then some 9 else if m = "october".data then some 10
  else if m = "november".data then some 11 else if m = "december".data then some 12
  else none

def clause2Try (M : Option Nat) (y d : Nat) : Option String :=
  match M with
  | some m => if validDate y m d then some (isoStr y m d) else none
  | none => none

/-- The two strptime attempts of the textual clause; an invalid calendar date
raises ValueError inside the loop, which the code turns into trying the next
format and then falling through. -/
def clause2Eval (d : Nat) (mon : List Char) (y : Nat) : Option String :=
  alt (clause2Try (monthAbbrev (mon.map Char.toLower)) y d)
      (clause2Try (monthFull (mon.map Char.toLower)) y d)

/-! ### fetch_real_marketdata.parse_date_string -/

def pdsClause1 (cs : List Char) : Option String :=
  match search1 cs with
  | some (d, m, y) => if validDate y m d then some (isoStr y m d) else none
  | none => none

def pdsClause2 (cs : List Char) : Option String :=
  match search2 cs with
  | some (d, mon, y) => clause2Eval d mon y
  | none => none

def pivotYY (yy : Nat) : Nat := if yy < 70 then 2000 + yy else 1900 + yy

def pdsClause3 (cs : List Char) : Option String :=
  match search3 cs with
  | some (d, m, yy) =>
    if validDate (pivotYY yy) m d then some (isoStr (pivotYY yy) m d) else none
  | none => none

/-- fetch_real_marketdata.parse_date_string: DD/MM/YYYY first, then a textual
month, then DD/MM/YY with a pivoted two-digit year; every failure path gives None. -/
def parse_date_string (s : String) : Option String :=
  if s = "" then none
  else
    alt (pdsClause1 (trimList s.data))
      (alt (pdsClause2 (trimList s.data)) (pdsClause3 (trimList s.data)))

/-! ### The date-like substring search \d{1,2}[\/\-\s]\d{1,2}[\/\-\s]\d{2,4}

Used both as the fallback inside parse_msamb_table's date rows and as part of
the date-row detection of parse_generic_table_with_mapping.  It returns the
matched substring (group 1 is the whole match). -/

def sepDS (cs : List Char) : Option (Char × List Char) :=
  match cs with
  | c :: r => if c = '/' ∨ c = '-' ∨ isWsChar c = true then some (c, r) else none
  | [] => none

def digitsC1 (cs : List Char) : Option (List Char × List Char) :=
  match cs with
  | c :: r => if c.isDigit then some ([c], r) else none
  | [] => none

def digitsC2 (cs : List Char) : Option (List Char × List Char) :=
  match cs with
  | a :: b :: r => if a.isDigit ∧ b.isDigit then some ([a, b], r) else none
  | _ => none

def digitsC3 (cs : List Char) : Option (List Char × List Char) :=
  match cs with
  | a :: b :: c :: r =>
    if a.isDigit ∧ b.isDigit ∧ c.isDigit then some ([a, b, c], r) else none
  | _ => none

def digitsC4 (cs : List Char) : Option (List Char × List Char) :=
  match cs with
  | a :: b :: c :: d :: r =>
    if a.isDigit ∧ b.isDigit ∧ c.isDigit ∧ d.isDigit then some ([a, b, c, d], r) else none
  | _ => none

def dsYear (cs : List Char) : Option (List Char) :=
  alt ((digitsC4 cs).map Prod.fst)
    (alt ((digitsC3 cs).map Prod.fst) ((digitsC2 cs).map Prod.fst))

def dsAfterMon (dchs : List Char) (s1 : Char) (mchs : List Char) (cs : List Char) :
    Option (List Char) :=
  match sepDS cs with
  | some (s2, r) =>
    match dsYear r with
    | some ychs => some (dchs ++ s1 :: mchs ++ s2 :: ychs)
    | none => none
  | none => none

def dsMon (dchs : List Char) (s1 : Char) (cs : List Char) : Option (List Char) :=
  alt (match digitsC2 cs with | some (m, r) => dsAfterMon dchs s1 m r | none => none)
      (match digitsC1 cs with | some (m, r) => dsAfterMon dchs s1 m r | none => none)

def dsAfterDay (dchs : List Char) (cs : List Char) : Option (List Char) :=
  match sepDS cs with
  | some (s1, r) => dsMon dchs s1 r
  | none => none

def dsAt (cs : List Char) : Option (List Char) :=
  alt (match digitsC2 cs with | some (d, r) => dsAfterDay d r | none => none)
      (match digitsC1 cs with | some (d, r) => dsAfterDay d r | none => none)

def searchDateish : List Char → Option (List Char)
  | [] => none
  | c :: r => alt (dsAt (c :: r)) (searchDateish r)

/-! ### Numeric cleaning -/

def natValC (cs : List Char) : Nat := cs.foldl (fun a c => 10 * a + digVal c) 0

/-- Python float() on an unsigned token over the alphabet of digits and dots:
digits, optionally a dot and more digits; anything else raises (none here). -/
def pyFloatU (cs : List Char) : Option ℚ :=
  match cs.dropWhile Char.isDigit with
  | [] => if cs = [] then none else some (natValC cs)
  | '.' :: frac =>
    if frac.all Char.isDigit ∧ (cs.takeWhile Char.isDigit ≠ [] ∨ frac ≠ []) then
      some ((natValC (cs.takeWhile Char.isDigit) : ℚ) +
        (natValC frac : ℚ) / ((10 : ℚ) ^ frac.length))
    else none
  | _ => none

/-- Python float() restricted to strings over digits, dot and minus (all that
survives the cleaners); none models ValueError. -/
def pyFloat (cs : List Char) : Option ℚ :=
  match cs with
  | '-' :: r => (pyFloatU r).map (fun q => -q)
  | _ => pyFloatU cs

def sentinels : List String := ["--", "-", "—", "NA", "N/A", "n/a", ""]

def keepNumChar (c : Char) : Bool := c.isDigit || c == '.' || c == '-'

/-- fetch_real_marketdata.clean_number: sentinel and separator stripping, the
[^\d\.\-] filter, degenerate-token rejection, float parse with every error
path returning None, and rejection of negative values. -/
def clean_number (s : Option String) : Option ℚ :=
  match s with
  | none => none
  | some s0 =>
    if stripStr s0 = "" ∨ stripStr s0 ∈ sentinels then none
    else
      match ((stripStr s0).data.filter
          (fun c => !(c == '\u00A0' || c == ',' || c == ' '))).filter keepNumChar with
      | [] => none
      | cleaned =>
        if cleaned = ['.'] ∨ cleaned = ['-'] then none
        else
          match pyFloat cleaned with
          | some v => if 0 ≤ v then some v else none
          | none => none

/-- apmc_scraper.MSAMBScraper._num: strips everything but digits and dots and
calls float with no exception handler; Except.error models the uncaught
ValueError. -/
def msamb_num (v : String) : Except Unit (Option ℚ) :=
  match v.data.filter (fun c => c.isDigit || c == '.') with
  | [] => Except.ok none
  | cleaned =>
    match pyFloat cleaned with
    | some q => Except.ok (some q)
    | none => Except.error ()

/-- msamb_scraper.MSAMBScraper._clean_numeric: same stripping but the float
call sits under a bare except returning None, so it never raises. -/
def msamb_clean_numeric (value : String) : Option ℚ :=
  if value = "" ∨ value = "-" then none
  else
    match value.data.filter (fun c => c.isDigit || c == '.') with
    | [] => none
    | cleaned =>
      match pyFloat cleaned with
      | some q => some q
      | none => none

/-! ### Table rows -/

/-- One extracted HTML table cell: its text content and whether the td carries
a colspan attribute. -/
structure Cell where
  text : String
  colspan : Bool
deriving DecidableEq

def pyTruthyOptStr (s : Option String) : Bool :=
  match s with
  | some t => t != ""
  | none => false

/-- tds[i].get_text(strip=True); out-of-range gives "" (the parsers only index
under a length guard, so the default is never reached there). -/
def cellTextAt (tds : List Cell) (i : Nat) : String :=
  match tds.get? i with
  | some c => stripStr c.text
  | none => ""

/-- The intermediate row dict produced by parse_msamb_table (and, with
commodity unset, by the generic parser). -/
structure ParsedRow where
  commodity : Option String
  date : String
  market : String
  variety : String
  unit : String
  arrival_raw : String
  min_price_raw : String
  max_price_raw : String
  modal_price_raw : String
deriving DecidableEq

/-! ### fetch_real_marketdata.parse_msamb_table -/

/-- The date-row handling of parse_msamb_table: try parse_date_string, then the
date-like substring fallback; if both fail the current date is left alone. -/
def msambDateUpdate (st : Option String) (txt : String) : Option String :=
  match parse_date_string txt with
  | some p => some p
  | none =>
    match searchDateish txt.data with
    | some sub =>
      match parse_date_string (String.mk sub) with
      | some p2 => some p2
      | none => st
    | none => st

def msambRow (name d : String) (tds : List Cell) : ParsedRow :=
  { commodity := some name, date := d,
    market := cellTextAt tds 0, variety := cellTextAt tds 1, unit := cellTextAt tds 2,
    arrival_raw := cellTextAt tds 3, min_price_raw := cellTextAt tds 4,
    max_price_raw := cellTextAt tds 5, modal_price_raw := cellTextAt tds 6 }

def msambGo (name : String) : Option String → List (List Cell) → List ParsedRow
  | _, [] => []
  | st, tds :: rest =>
    match tds with
    | [] => msambGo name st rest
    | c0 :: _ =>
      if tds.length = 1 ∨ c0.colspan = true then
        msambGo name (msambDateUpdate st (stripStr c0.text)) rest
      else if 7 ≤ tds.length ∧ pyTruthyOptStr st = true then
        msambRow name (st.getD "") tds :: msambGo name st rest
      else msambGo name st rest

/-- fetch_real_marketdata.parse_msamb_table over the extracted tr rows. -/
def parse_msamb_table (commodity_display_name : String) (trs : List (List Cell)) :
    List ParsedRow :=
  msambGo commodity_display_name none trs

/-! ### msamb_scraper.MSAMBScraper: the variant whose parse_date falls back to
datetime.date.today() -/

/-- strptime(s, DD/MM/YYYY): the whole string must be day(1-2 digits) /
month(1-2 digits) / 4-digit year, and the calendar date must be valid. -/
def strptimeDMY (s : String) : Option (Nat × Nat × Nat) :=
  match List.splitOn '/' s.data with
  | [ds, ms, ys] =>
    if ds ≠ [] ∧ ds.length ≤ 2 ∧ ds.all Char.isDigit = true ∧
        ms ≠ [] ∧ ms.length ≤ 2 ∧ ms.all Char.isDigit = true ∧
        ys.length = 4 ∧ ys.all Char.isDigit = true then
      if validDate (natValC ys) (natValC ms) (natValC ds) then
        some (natValC ys, natValC ms, natValC ds)
      else none
    else none
  | _ => none

/-- msamb_scraper.MSAMBScraper.parse_date: on any parse failure it returns
datetime.date.today() instead of failing; today is passed in explicitly. -/
def msamb2ParseDate (today : String) (s : String) : String :=
  match strptimeDMY s with
  | some (y, m, d) => isoStr y m d
  | none => today

/-- The raw record dict built by msamb_scraper.MSAMBScraper._parse_msamb_html
(and consumed by normalize_record in both scraper variants). -/
structure RawRec where
  commodity_code : String
  crop_name : String
  market_location : String
  variety : Option String
  unit : String
  price_date : String
  district : Option String
  arrival : Option ℚ
  min_price : Option ℚ
  max_price : Option ℚ
  modal_price : Option ℚ
deriving DecidableEq

def msamb2Row (code name d : String) (tds : List Cell) : RawRec :=
  { commodity_code := code, crop_name := name,
    market_location := cellTextAt tds 0,
    variety := if cellTextAt tds 1 = "" then none else some (cellTextAt tds 1),
    unit := if cellTextAt tds 2 = "" then "quintal" else cellTextAt tds 2,
    price_date := d, district := none,
    arrival := msamb_clean_numeric (cellTextAt tds 3),
    min_price := msamb_clean_numeric (cellTextAt tds 4),
    max_price := msamb_clean_numeric (cellTextAt tds 5),
    modal_price := msamb_clean_numeric (cellTextAt tds 6) }

def msamb2Go (today code name : String) :
    Option String → List (List Cell) → List RawRec
  | _, [] => []
  | st, tds :: rest =>
    match tds with
    | [] => msamb2Go today code name st rest
    | c0 :: _ =>
      if tds.length = 1 ∨ (7 ≤ tds.length ∧ c0.colspan = true) then
        msamb2Go today code name
          (if stripStr c0.text ≠ "" then some (msamb2ParseDate today (stripStr c0.text)) else st)
          rest
      else if 7 ≤ tds.length ∧ st.isSome = true then
        msamb2Row code name (st.getD "") tds :: msamb2Go today code name st rest
      else msamb2Go today code name st rest

/-- msamb_scraper.MSAMBScraper._parse_msamb_html: current_date is a date object,
so once set it is always truthy; a failed date text silently becomes today. -/
def msamb2_parse (today code name : String) (trs : List (List Cell)) : List RawRec :=
  msamb2Go today code name none trs

/-! ### fetch_real_marketdata.process_source: per-row normalization -/

/-- The upsert payload assembled by process_source (fields relevant to the
pipeline's invariants; the constant and passthrough metadata fields that play
no role in any claim are omitted). -/
structure Payload where
  source_id : String
  commodity_code : String
  global_commodity_code : String
  crop_name : Option String
  variety : Option String
  unit : String
  arrival : Option ℚ
  min_price : Option ℚ
  max_price : Option ℚ
  modal_price : Option ℚ
  spread : Option ℚ
  price_per_unit : ℚ
  market_location : String
  price_date : String
  price_type : String
  status : String
deriving DecidableEq

/-- Python str.upper (character-wise, as the sources use it on ASCII tags). -/
def pyUpper (s : String) : String := String.mk (s.data.map Char.toUpper)

def fallbackGlobalCode (organization code : String) : String :=
  pyUpper (if organization = "" then "SRC" else organization) ++ "_" ++ code

/-- alias_map.get(code) or the synthetic ORG_code fallback (Python or, so an
empty mapped value also falls back). -/
def globalCodeFor (alias_map : List (String × String)) (organization code : String) : String :=
  match alias_map.lookup code with
  | some g => if g = "" then fallbackGlobalCode organization code else g
  | none => fallbackGlobalCode organization code

/-- The price_per_unit cascade of process_source: modal, else the min/max
average, else whichever single bound is present. -/
def pricePerUnitOf (modal_p min_p max_p : Option ℚ) : Option ℚ :=
  match modal_p with
  | some v => some v
  | none =>
    match min_p, max_p with
    | some mn, some mx => some ((mn + mx) / 2)
    | some mn, none => some mn
    | none, some mx => some mx
    | none, none => none

/-- spread = max - min when both cleaned values are not None (0 counts as
present), else None. -/
def spreadOf (min_p max_p : Option ℚ) : Option ℚ :=
  match min_p, max_p with
  | some mn, some mx => some (mx - mn)
  | _, _ => none

/-- One iteration of the normalization loop in process_source: rows with no
date or market are skipped, and a row is dropped unless a strictly positive
price_per_unit can be derived. -/
def normalize_payload (source_id organization : String)
    (alias_map : List (String × String)) (code : String) (pr : ParsedRow) :
    Option Payload :=
  if pr.date = "" ∨ pr.market = "" then none
  else
    match pricePerUnitOf (clean_number (some pr.modal_price_raw))
        (clean_number (some pr.min_price_raw)) (clean_number (some pr.max_price_raw)) with
    | none => none
    | some ppu =>
      if ppu ≤ 0 then none
      else some
        { source_id := source_id, commodity_code := code,
          global_commodity_code := globalCodeFor alias_map organization code,
          crop_name := pr.commodity,
          variety := if pr.variety = "" then none else some pr.variety,
          unit := if pr.unit = "" then "quintal" else pr.unit,
          arrival := clean_number (some pr.arrival_raw),
          min_price := clean_number (some pr.min_price_raw),
          max_price := clean_number (some pr.max_price_raw),
          modal_price := clean_number (some pr.modal_price_raw),
          spread := spreadOf (clean_number (some pr.min_price_raw))
            (clean_number (some pr.max_price_raw)),
          price_per_unit := ppu,
          market_location := pr.market, price_date := pr.date,
          price_type := "wholesale", status := "ready" }

/-- The list payloads_to_upsert accumulated by process_source for one
commodity: every parsed row is normalized independently and appended; no
deduplication happens before upsert_batch is called. -/
def normalized_payloads (source_id organization : String)
    (alias_map : List (String × String)) (code : String) (rows : List ParsedRow) :
    List Payload :=
  rows.filterMap (normalize_payload source_id organization alias_map code)

/-! ### The store-side upsert on the natural key -/

abbrev NatKey := String × String × String × String

def natKeyF (p : Payload) : NatKey :=
  (p.source_id, p.commodity_code, p.price_date, p.market_location)

/-- Upsert of one record keyed on (source_id, commodity_code, price_date,
market_location): a conflicting key replaces the stored record entirely. -/
def applyPayload (store : NatKey → Option Payload) (p : Payload) :
    NatKey → Option Payload :=
  fun k => if k = natKeyF p then some p else store k

def applyAll (store : NatKey → Option Payload) (ps : List Payload) :
    NatKey → Option Payload :=
  ps.foldl applyPayload store

/-! ### normalize_record in the two scraper variants -/

/-- Python `a or b` on optional floats: a 0 value is falsy and falls through. -/
def pyOrQ (a b : Option ℚ) : Option ℚ :=
  match a with
  | some x => if x = 0 then b else some x
  | none => b

/-- The spread expression shared by apmc_scraper.normalize_record and
msamb_scraper._calculate_spread: `if min_p and max_p` uses truthiness, so a 0
price yields None. -/
def truthySpread (min_p max_p : Option ℚ) : Option ℚ :=
  match min_p, max_p with
  | some mn, some mx => if mn ≠ 0 ∧ mx ≠ 0 then some (mx - mn) else none
  | _, _ => none

/-- apmc_scraper.BaseAPMCScraper.normalize_record output (price_per_unit is the
plain number `modal or max or 0`, never null). -/
structure APayload where
  source_id : String
  commodity_code : String
  crop_name : String
  variety : Option String
  unit : String
  market_location : String
  state : Option String
  price_date : String
  arrival : Option ℚ
  min_price : Option ℚ
  max_price : Option ℚ
  modal_price : Option ℚ
  price_per_unit : ℚ
  spread : Option ℚ
  price_type : String
  status : String
deriving DecidableEq

def apmc_normalize_record (source_id : String) (state_code : Option String) (r : RawRec) :
    APayload :=
  { source_id := source_id, commodity_code := r.commodity_code, crop_name := r.crop_name,
    variety := r.variety, unit := r.unit, market_location := r.market_location,
    state := state_code, price_date := r.price_date, arrival := r.arrival,
    min_price := r.min_price, max_price := r.max_price, modal_price := r.modal_price,
    price_per_unit := (pyOrQ r.modal_price r.max_price).getD 0,
    spread := truthySpread r.min_price r.max_price,
    price_type := "wholesale", status := "ready" }

/-- msamb_scraper.BaseAPMCScraper.normalize_record output (price_per_unit is
`modal or max`, which can be null). -/
structure MPayload where
  source_id : String
  commodity_code : String
  crop_name : String
  variety : Option String
  unit : String
  market_location : String
  state : Option String
  price_date : String
  arrival : Option ℚ
  min_price : Option ℚ
  max_price : Option ℚ
  modal_price : Option ℚ
  price_per_unit : Option ℚ
  spread : Option ℚ
  price_type : String
  status : String
deriving DecidableEq

def msamb_normalize_record (source_id : String) (state_code : Option String) (r : RawRec) :
    MPayload :=
  { source_id := source_id, commodity_code := r.commodity_code, crop_name := r.crop_name,
    variety := r.variety, unit := r.unit, market_location := r.market_location,
    state := state_code, price_date := r.price_date, arrival := r.arrival,
    min_price := r.min_price, max_price := r.max_price, modal_price := r.modal_price,
    price_per_unit := pyOrQ r.modal_price r.max_price,
    spread := truthySpread r.min_price r.max_price,
    price_type := "wholesale", status := "ready" }

/-! ### apmc_scraper.BaseAPMCScraper.run: resume filtering and watermark order -/

/-- Lexicographic comparison of character lists by code point: the order
Python uses for its str < / > / max. -/
def lexLt : List Char → List Char → Bool
  | [], [] => false
  | [], _ :: _ => true
  | _ :: _, [] => false
  | a :: as, b :: bs =>
    if a.toNat < b.toNat then true
    else if b.toNat < a.toNat then false
    else lexLt as bs

/-- Python string strict comparison a < b. -/
def strLtB (a b : String) : Bool := lexLt a.data b.data

/-- Python string comparison a <= b. -/
def strLeB (a b : String) : Bool := !(strLtB b a)

/-- A fetched row as filtered by run (a dict; price_date may be absent). -/
structure FetchedRow where
  price_date : Option String
  market_location : String
  modal_price : Option ℚ
deriving DecidableEq

/-- The filter in run: applied only when resume_map.get(code) is truthy, and a
row survives iff its price_date is truthy and strictly greater (string
comparison) than the watermark. -/
def resumeFilter (wm : Option String) (rows : List FetchedRow) : List FetchedRow :=
  match wm with
  | none => rows
  | some w =>
    if w = "" then rows
    else rows.filter (fun r =>
      match r.price_date with
      | some d => d != "" && strLtB w d
      | none => false)

/-- Python max over a nonempty list of strings (first maximum wins ties);
max([]) cannot occur because the caller guards on nonemptiness. -/
def pyMaxStr : List String → String
  | [] => ""
  | h :: t => t.foldl (fun a b => if strLtB a b then b else a) h

/-- newest = max(r[price_date] for r in rows) over the filtered rows. -/
def newestOf (rows : List FetchedRow) : String :=
  pyMaxStr (rows.map (fun r => r.price_date.getD ""))

/-- Observable events of one source run, in program order: persisting a
commodity's resume watermark (_update_resume_point) and calling _upsert. -/
inductive RunEv where
  | wmWrite (code : String) (date : String)
  | upsertCall (count : Nat)
deriving DecidableEq

def apmcRunStep (fetch : String → List FetchedRow) (resume : String → Option String)
    (acc : List RunEv × Nat) (cn : String × String) : List RunEv × Nat :=
  match resumeFilter (resume cn.1) (fetch cn.1) with
  | [] => acc
  | rows => (acc.1 ++ [RunEv.wmWrite cn.1 (newestOf rows)], acc.2 + rows.length)

/-- apmc_scraper.BaseAPMCScraper.run, reduced to its event trace: per commodity
the filtered rows are accumulated and the watermark is persisted immediately;
_upsert(all_rows) runs once, after the loop. -/
def apmc_run_events (commodities : List (String × String))
    (fetch : String → List FetchedRow) (resume : String → Option String) : List RunEv :=
  match commodities.foldl (apmcRunStep fetch resume) ([], 0) with
  | (evs, n) => if n = 0 then evs else evs ++ [RunEv.upsertCall n]

/-! ### Upsert engines -/

/-- Outcome of committing one batch to the store: failure (an exception), or
success with the optional response data list. -/
inductive BatchResp (α : Type) where
  | failed
  | ok (data : Option (List α))

/-- The count added for one successful batch: len(resp.data) when data is a
nonempty list, else len(chunk). -/
def respCount {α : Type} (data : Option (List α)) (chunk : List α) : Nat :=
  match data with
  | some l => if l.isEmpty then chunk.length else l.length
  | none => chunk.length

/-- fetch_real_marketdata.upsert_batch: ceil(n/batch_size) fixed-size chunks,
each committed inside try/except so a failure never stops the loop.  Returns
the accumulated count together with the list of chunks that were attempted. -/
def upsert_batch {α : Type} (commit : Nat → List α → BatchResp α) (payloads : List α)
    (batch_size : Nat) : Nat × List (List α) :=
  if payloads.isEmpty then (0, [])
  else
    (List.range ((payloads.length + batch_size - 1) / batch_size)).foldl
      (fun acc i =>
        match commit i ((payloads.drop (i * batch_size)).take batch_size) with
        | BatchResp.failed => (acc.1, acc.2 ++ [(payloads.drop (i * batch_size)).take batch_size])
        | BatchResp.ok data =>
          (acc.1 + respCount data ((payloads.drop (i * batch_size)).take batch_size),
            acc.2 ++ [(payloads.drop (i * batch_size)).take batch_size]))
      (0, [])

/-- apmc_scraper.BaseAPMCScraper._upsert: the same chunking but with no
exception handler, so the first failing batch raises and every later batch is
never attempted.  Returns the attempted chunks and whether no exception
escaped. -/
def apmc_upsert {α : Type} (commit : Nat → List α → Bool) (rows : List α) (batch : Nat) :
    List (List α) × Bool :=
  (List.range ((rows.length + batch - 1) / batch)).foldl
    (fun acc k =>
      if acc.2 then
        if commit k ((rows.drop (k * batch)).take batch) then
          (acc.1 ++ [(rows.drop (k * batch)).take batch], true)
        else (acc.1 ++ [(rows.drop (k * batch)).take batch], false)
      else acc)
    ([], true)

/-- What run reports as records_upserted: len(all_rows) when _upsert returned,
and the initial 0 when it raised (the assignment after _upsert is skipped). -/
def apmc_reported {α : Type} (rows : List α) (res : List (List α) × Bool) : Nat :=
  if res.2 then rows.length else 0

/-! ### fetch_real_marketdata.parse_generic_table_with_mapping -/

/-- mapping.get(key, default) for the column-index mapping. -/
def pyDictGetNat (m : List (String × Nat)) (k : String) (dflt : Nat) : Nat :=
  match m.lookup k with
  | some v => v
  | none => dflt

/-- max(mapping.values()); only evaluated under the `if mapping` guard, so the
nonsense value for an empty mapping is never consulted. -/
def maxValuesOf (m : List (String × Nat)) : Nat :=
  (m.map Prod.snd).foldl Nat.max 0

/-- get_col(i): cols[i].get_text(strip=True) if i < len(cols) else "". -/
def getCol (cols : List Cell) (i : Nat) : String :=
  if h : i < cols.length then stripStr (cols.get ⟨i, h⟩).text else ""

def mkGenRec (mapping : List (String × Nat)) (d : String) (cols : List Cell) : ParsedRow :=
  { commodity := none, date := d,
    market := getCol cols (pyDictGetNat mapping "market" 0),
    variety := getCol cols (pyDictGetNat mapping "variety" 1),
    unit := getCol cols (pyDictGetNat mapping "unit" 2),
    arrival_raw := getCol cols (pyDictGetNat mapping "arrival" 3),
    min_price_raw := getCol cols (pyDictGetNat mapping "min_price" 4),
    max_price_raw := getCol cols (pyDictGetNat mapping "max_price" 5),
    modal_price_raw := getCol cols (pyDictGetNat mapping "modal_price" 6) }

/-- One loop iteration of parse_generic_table_with_mapping: the date-row branch
(single cell with colspan or a date-like substring), then the guarded data-row
branch requiring strictly more cells than the largest mapped column index. -/
def genericStep (mapping : List (String × Nat)) (st : Option String) (cols : List Cell) :
    Option String × Option ParsedRow :=
  match cols with
  | [] => (st, none)
  | c0 :: _ =>
    if cols.length = 1 ∧ (c0.colspan = true ∨ (searchDateish c0.text.data).isSome = true) then
      match parse_date_string (stripStr c0.text) with
      | some d => (some d, none)
      | none => (st, none)
    else if mapping ≠ [] ∧ pyTruthyOptStr st = true ∧ maxValuesOf mapping < cols.length then
      (st, some (mkGenRec mapping (st.getD "") cols))
    else (st, none)

/-- parse_generic_table_with_mapping over extracted rows; initial_date models
the optional date_selector lookup that seeds current_date. -/
def parse_generic_table_with_mapping (mapping : List (String × Nat))
    (initial_date : Option String) (rows : List (List Cell)) : List ParsedRow :=
  (rows.foldl (fun acc row =>
    match genericStep mapping acc.1 row with
    | (st, some r) => (st, acc.2 ++ [r])
    | (st, none) => (st, acc.2)) (initial_date, [])).2

/-! ### Concrete inputs used by the witnesses and counterexamples -/

def cOf (t : String) : Cell := { text := t, colspan := false }

/-- The spec's TableParser example: a date row, a data row, a bad date row,
another data row. -/
def exTable : List (List Cell) :=
  [[cOf "15/12/2025"],
   [cOf "Pune", cOf "Local", cOf "Quintal", cOf "1200", cOf "1000", cOf "1500", cOf "1300"],
   [cOf "badtext"],
   [cOf "Mumbai", cOf "Local", cOf "Quintal", cOf "800", cOf "900", cOf "1400", cOf "1100"]]

/-- A parsed row whose source reports min above max. -/
def prNeg : ParsedRow :=
  { commodity := some "Onion", date := "2025-12-15", market := "Pune", variety := "Local",
    unit := "Quintal", arrival_raw := "120", min_price_raw := "500", max_price_raw := "300",
    modal_price_raw := "400" }

/-- A parsed row from which no price at all can be derived. -/
def prDrop : ParsedRow :=
  { commodity := some "Onion", date := "2025-12-15", market := "Pune", variety := "Local",
    unit := "Quintal", arrival_raw := "-", min_price_raw := "-", max_price_raw := "-",
    modal_price_raw := "-" }

/-- A raw scraper record with no modal, max or min price. -/
def rawNoPrices : RawRec :=
  { commodity_code := "08035", crop_name := "Onion", market_location := "Pune",
    variety := none, unit := "quintal", price_date := "2025-12-15", district := none,
    arrival := some 120, min_price := none, max_price := none, modal_price := none }

/-- Two rows with the same natural key and modal prices 120 then 100. -/
def dupRows : List ParsedRow :=
  [{ commodity := some "Onion", date := "2025-12-15", market := "Pune", variety := "Local",
     unit := "Quintal", arrival_raw := "10", min_price_raw := "90", max_price_raw := "130",
     modal_price_raw := "120" },
   { commodity := some "Onion", date := "2025-12-15", market := "Pune", variety := "Hybrid",
     unit := "Quintal", arrival_raw := "12", min_price_raw := "80", max_price_raw := "125",
     modal_price_raw := "100" }]

def frOf (d : String) : FetchedRow :=
  { price_date := some d, market_location := "Pune", modal_price := some 100 }

/-- The ResumeTracker example rows: dates straddling the watermark. -/
def exRows4 : List FetchedRow :=
  [frOf "2025-12-09", frOf "2025-12-10", frOf "2025-12-11"]

def fetchEx : String → List FetchedRow := fun _ => [frOf "2025-12-11"]

def resumeEx : String → Option String := fun _ => some "2025-12-10"

/-- Store behavior for the upsert example: the second batch (index 1) fails. -/
def commitB : Nat → List Nat → BatchResp Nat :=
  fun i _ => if i = 1 then BatchResp.failed else BatchResp.ok none

def commitA : Nat → List Nat → Bool := fun i _ => !(i == 1)

/-- The standard seven-column mapping used by the generic parser. -/
def mapEx : List (String × Nat) :=
  [("market", 0), ("variety", 1), ("unit", 2), ("arrival", 3), ("min_price", 4),
   ("max_price", 5), ("modal_price", 6)]

def colsEx : List Cell :=
  [cOf "Pune", cOf "Local", cOf "Quintal", cOf "1200", cOf "1000", cOf "1500", cOf "1300",
   cOf "extra"]

/-- The payload process_source builds from prNeg (spread kept in its computed
max - min form). -/
def pNeg : Payload :=
  { source_id := "src1", commodity_code := "08035",
    global_commodity_code := "MSAMB_08035", crop_name := some "Onion",
    variety := some "Local", unit := "Quintal", arrival := some 120,
    min_price := some 500, max_price := some 300, modal_price := some 400,
    spread := some ((300 : ℚ) - 500), price_per_unit := 400,
    market_location := "Pune", price_date := "2025-12-15",
    price_type := "wholesale", status := "ready" }

/-! ## Theorems -/

/-- C1: fetch_real_marketdata.parse_msamb_table keeps the last successfully
parsed date across a date-marker row whose text fails to parse — both data
rows of the example come out dated 2025-12-15 — while msamb_scraper's
_parse_msamb_html substitutes today's date (parse_date falls back to
datetime.date.today()), so its second data row is dated "today"
(2026-01-01 in this run) instead of 2025-12-15.  The claim's invariant holds
for the former parser and is violated by the latter. -/
theorem c1_failed_date_row_divergence :
    (parse_msamb_table "Onion" exTable).map (fun r => r.date) =
      ["2025-12-15", "2025-12-15"] ∧
    (msamb2_parse "2026-01-01" "08035" "Onion" exTable).map (fun r => r.price_date) =
      ["2025-12-15", "2026-01-01"] := by
  constructor
  · decide
  · decide

/-- C2: process_source drops a row from which no positive price can be
derived (claim-conformant), but apmc_scraper.normalize_record emits the same
priceless record with price_per_unit = 0 and msamb_scraper.normalize_record
emits it with price_per_unit = None — both reach the upsert, contradicting
the claim that such records are never stored with a null or zero
price_per_unit. -/
theorem c2_price_per_unit_divergence :
    normalize_payload "src1" "msamb" [] "08035" prDrop = none ∧
    (apmc_normalize_record "src1" (some "MH") rawNoPrices).price_per_unit = 0 ∧
    (msamb_normalize_record "src1" (some "MH") rawNoPrices).price_per_unit = none := by
  refine ⟨by decide, by decide, by decide⟩

/-- C3 counterexample: the pipeline does not collapse records sharing the
natural key before upsert — normalizing two rows with the same
(source, commodity, date, market) key and modal prices 120 and 100 yields a
pre-upsert list still containing both records (its key list is not
duplicate-free), not a single record with modal price 120. -/
theorem c3_no_dedup_counterexample :
    ¬ ((normalized_payloads "src1" "msamb" [] "08035" dupRows).map natKeyF).Nodup ∧
    (normalized_payloads "src1" "msamb" [] "08035" dupRows).map (fun p => p.modal_price) =
      [some 120, some 100] := by
  refine ⟨by decide, by decide⟩

/-- C3 amended: the pipeline performs no pre-upsert deduplication; conflict
resolution happens at the store, whose keyed upsert replaces the stored
record, so for every natural key the record that survives is the last one
sent with that key — regardless of modal price. -/
theorem c3_last_write_wins (store : NatKey → Option Payload) (ps : List Payload)
    (k : NatKey) :
    applyAll store ps k =
      match (ps.filter (fun p => decide (natKeyF p = k))).getLast? with
      | some p => some p
      | none => store k := by
  induction ps generalizing store with
  | nil => rfl
  | cons p ps ih =>
    show applyAll (applyPayload store p) ps k = _
    rw [ih]
    by_cases hk : natKeyF p = k
    · have hd : (decide (natKeyF p = k)) = true := decide_eq_true hk
      simp only [List.filter_cons, hd, if_true]
      cases hfl : (List.filter (fun p => decide (natKeyF p = k)) ps) with
      | nil =>
        simp only [hfl, List.getLast?_singleton]
        show applyPayload store p k = some p
        show (if k = natKeyF p then some p else store k) = some p
        rw [if_pos hk.symm]
      | cons q l =>
        simp only [hfl, List.getLast?_cons_cons]
        cases hgl : (q :: l).getLast? with
        | none => exact absurd (List.getLast?_eq_none_iff.mp hgl) (by simp)
        | some r => rfl
    · have hd : (decide (natKeyF p = k)) = false := decide_eq_false hk
      rw [List.filter_cons, hd, if_neg (by simp)]
      cases hfl : (List.filter (fun p => decide (natKeyF p = k)) ps) with
      | nil =>
        simp only [hfl, List.getLast?_nil]
        show applyPayload store p k = store k
        show (if k = natKeyF p then some p else store k) = store k
        rw [if_neg (fun h => hk h.symm)]
      | cons q l => rfl

/-- C5: in apmc_scraper.BaseAPMCScraper.run the watermark for a commodity is
persisted inside the per-commodity loop, before the single _upsert call that
follows the loop: for a run over one commodity with one fresh row the event
trace is [watermark write, upsert], i.e. the watermark write precedes the
upsert attempt, contradicting the claim. -/
theorem c5_watermark_before_upsert :
    apmc_run_events [("08035", "Onion")] fetchEx resumeEx =
      [RunEv.wmWrite "08035" "2025-12-11", RunEv.upsertCall 1] := by
  decide

/-- C6: with rows [1,2,3], batch size 1 and the second batch's commit
failing, fetch_real_marketdata.upsert_batch attempts all three batches and
returns 2 (the records in the successfully committed batches) —
claim-conformant — while apmc_scraper._upsert lets the exception escape, so
the third batch is never attempted and run reports records_upserted = 0
instead of the per-successful-batch count. -/
theorem c6_batch_failure_divergence :
    upsert_batch commitB [1, 2, 3] 1 = (2, [[1], [2], [3]]) ∧
    apmc_upsert commitA [1, 2, 3] 1 = ([[1], [2]], false) ∧
    apmc_reported [1, 2, 3] (apmc_upsert commitA [1, 2, 3] 1) = 0 := by
  refine ⟨by decide, by decide, by decide⟩

/-- C7: fetch_real_marketdata.clean_number returns None on empty, sentinel
and negative inputs (and a value on a normal price), but
apmc_scraper.MSAMBScraper._num strips "." to itself and calls float(".")
with no handler, raising ValueError — the numeric cleaner of that variant
does throw, contradicting the claim. -/
theorem c7_numeric_cleaner_divergence :
    clean_number (some "") = none ∧ clean_number (some "-") = none ∧
    clean_number (some "--") = none ∧ clean_number (some "—") = none ∧
    clean_number (some "NA") = none ∧ clean_number (some "N/A") = none ∧
    clean_number none = none ∧ clean_number (some "-5") = none ∧
    clean_number (some " 1,234 ") = some 1234 ∧
    msamb_num "." = Except.error () := by
  refine ⟨by decide, by decide, by decide, by decide, by decide, by decide, by decide,
    by decide, by decide, by rfl⟩

/-- C9 counterexample: a parsed row reporting min 500, max 300 and modal 400
is emitted by process_source (price_per_unit 400 > 0) with spread
max - min = -200 < 0: a stored record carries a negative spread, so "never
negative in a stored record" is false — nothing drops or nulls it. -/
theorem c9_negative_spread_counterexample :
    (normalize_payload "src1" "msamb" [] "08035" prNeg).map
      (fun p => (p.spread, p.price_per_unit)) = some (some (-200), 400) ∧
    (-200 : ℚ) < 0 := by
  constructor
  · have h : (normalize_payload "src1" "msamb" [] "08035" prNeg).map
        (fun p => (p.spread, p.price_per_unit)) = some (some ((300 : ℚ) - 500), 400) := by
      rfl
    rw [h]
    norm_num
  · norm_num

/-- C9 amended: in every record process_source emits, spread equals
maxPrice - minPrice whenever both cleaned prices are present (0 included)
and is null whenever either is absent; it is not guaranteed non-negative —
a source row with min above max is stored with a negative spread. -/
theorem c9_spread_formula (sid org : String) (amap : List (String × String))
    (code : String) (pr : ParsedRow) (p : Payload)
    (h : normalize_payload sid org amap code pr = some p) :
    p.spread = (match p.min_price, p.max_price with
      | some mn, some mx => some (mx - mn)
      | _, _ => none) := by
  unfold normalize_payload at h
  split at h
  · exact absurd h (by simp)
  · split at h
    · exact absurd h (by simp)
    · split at h
      · exact absurd h (by simp)
      · rw [Option.some.injEq] at h
        subst h
        show spreadOf (clean_number (some pr.min_price_raw))
            (clean_number (some pr.max_price_raw)) = _
        cases hmn : clean_number (some pr.min_price_raw) <;>
          cases hmx : clean_number (some pr.max_price_raw) <;> rfl

/-- C9 witness: the spread formula instantiated on the concrete emitted
payload of prNeg. -/
theorem c9_spread_formula_witness :
    pNeg.spread = (match pNeg.min_price, pNeg.max_price with
      | some mn, some mx => some (mx - mn)
      | _, _ => none) :=
  c9_spread_formula "src1" "msamb" [] "08035" prNeg pNeg (by rfl)

/-- C10: parse_generic_table_with_mapping extracts cells from a data row only
when the row has strictly more cells than the largest column index in the
mapping (and the mapping is nonempty), its per-cell accessor get_col returns
"" for any index at or beyond the row's cell count, and every access either
hits a cell under an in-bounds proof or yields "" — no out-of-range access
exists for any mapping. -/
theorem c10_generic_guard :
    (∀ (m : List (String × Nat)) (st : Option String) (cols : List Cell)
        (st2 : Option String) (rec : ParsedRow),
        genericStep m st cols = (st2, some rec) →
        m ≠ [] ∧ maxValuesOf m < cols.length) ∧
    (∀ (cols : List Cell) (i : Nat), cols.length ≤ i → getCol cols i = "") ∧
    (∀ (cols : List Cell) (i : Nat),
        getCol cols i = "" ∨
        ∃ hlt : i < cols.length, getCol cols i = stripStr (cols.get ⟨i, hlt⟩).text) := by
  refine ⟨?_, ?_, ?_⟩
  · intro m st cols st2 rec h
    cases cols with
    | nil => simp [genericStep] at h
    | cons c0 cs =>
      simp only [genericStep] at h
      split at h
      · split at h <;> simp at h
      · split at h
        · next hc => exact ⟨hc.1, hc.2.2⟩
        · simp at h
  · intro cols i hi
    unfold getCol
    rw [dif_neg (by omega)]
  · intro cols i
    by_cases hlt : i < cols.length
    · right
      refine ⟨hlt, ?_⟩
      unfold getCol
      rw [dif_pos hlt]
    · left
      unfold getCol
      rw [dif_neg hlt]

/-- C10 witness: the guard instantiated on the seven-column mapping and an
eight-cell row (the step emits a record, so 6 = max index < 8 = cells), and
the accessor on an empty row. -/
theorem c10_generic_guard_witness :
    mapEx ≠ [] ∧ maxValuesOf mapEx < colsEx.length ∧ getCol ([] : List Cell) 0 = "" := by
  have h := c10_generic_guard
  exact ⟨(h.1 mapEx (some "2025-12-15") colsEx (some "2025-12-15")
      (mkGenRec mapEx "2025-12-15" colsEx) (by decide)).1,
    (h.1 mapEx (some "2025-12-15") colsEx (some "2025-12-15")
      (mkGenRec mapEx "2025-12-15" colsEx) (by decide)).2,
    h.2.1 [] 0 (by decide)⟩

/-! ### Order lemmas for the lexicographic string comparison -/

theorem lexLt_irrefl (l : List Char) : lexLt l l = false := by
  induction l with
  | nil => rfl
  | cons a as ih => simp [lexLt, ih]

theorem lexLt_cons_iff {x y : Char} {xs ys : List Char} :
    lexLt (x :: xs) (y :: ys) = true ↔
      (x.toNat < y.toNat ∨ (x.toNat = y.toNat ∧ lexLt xs ys = true)) := by
  simp only [lexLt]
  split_ifs with h1 h2
  · simp [h1]
  · constructor
    · intro h
      exact absurd h (by simp)
    · rintro (h | ⟨e, _⟩) <;> omega
  · have e : x.toNat = y.toNat := by omega
    constructor
    · intro h
      exact Or.inr ⟨e, h⟩
    · rintro (h | ⟨_, h⟩)
      · omega
      · exact h

theorem lexLt_cons_false_iff {x y : Char} {xs ys : List Char} :
    lexLt (x :: xs) (y :: ys) = false ↔
      (y.toNat < x.toNat ∨ (x.toNat = y.toNat ∧ lexLt xs ys = false)) := by
  rw [Bool.eq_false_iff, Ne, lexLt_cons_iff]
  constructor
  · intro h
    by_cases he : x.toNat = y.toNat
    · refine Or.inr ⟨he, ?_⟩
      cases hl : lexLt xs ys
      · rfl
      · exact absurd (Or.inr ⟨he, hl⟩) h
    · have : ¬ x.toNat < y.toNat := fun hlt => h (Or.inl hlt)
      exact Or.inl (by omega)
  · rintro (h | ⟨e, hl⟩) <;> rintro (h2 | ⟨e2, hl2⟩) <;> try omega
    rw [hl] at hl2
    exact absurd hl2 (by simp)

theorem lexLt_trans : ∀ (a b c : List Char),
    lexLt a b = true → lexLt b c = true → lexLt a c = true
  | [], b, c, h1, h2 => by
    cases b with
    | nil => simp [lexLt] at h1
    | cons y ys =>
      cases c with
      | nil => simp [lexLt] at h2
      | cons z zs => rfl
  | x :: xs, b, c, h1, h2 => by
    cases b with
    | nil => simp [lexLt] at h1
    | cons y ys =>
      cases c with
      | nil => simp [lexLt] at h2
      | cons z zs =>
        rw [lexLt_cons_iff] at h1 h2 ⊢
        rcases h1 with h1 | ⟨e1, l1⟩ <;> rcases h2 with h2 | ⟨e2, l2⟩
        · exact Or.inl (by omega)
        · exact Or.inl (by omega)
        · exact Or.inl (by omega)
        · exact Or.inr ⟨by omega, lexLt_trans xs ys zs l1 l2⟩

theorem lexLt_le_trans : ∀ (a b c : List Char),
    lexLt b a = false → lexLt c b = false → lexLt c a = false
  | a, b, [], h1, h2 => by
    cases b with
    | cons _ _ => simp [lexLt] at h2
    | nil =>
      cases a with
      | cons _ _ => simp [lexLt] at h1
      | nil => rfl
  | a, b, z :: zs, h1, h2 => by
    cases b with
    | nil =>
      cases a with
      | nil => rfl
      | cons _ _ => simp [lexLt] at h1
    | cons y ys =>
      cases a with
      | nil => rfl
      | cons x xs =>
        rw [lexLt_cons_false_iff] at h1 h2 ⊢
        rcases h1 with h1 | ⟨e1, l1⟩ <;> rcases h2 with h2 | ⟨e2, l2⟩
        · exact Or.inl (by omega)
        · exact Or.inl (by omega)
        · exact Or.inl (by omega)
        · exact Or.inr ⟨by omega, lexLt_le_trans xs ys zs l1 l2⟩

theorem strLtB_asymm {a b : String} (h : strLtB a b = true) : strLtB b a = false := by
  cases hb : strLtB b a
  · rfl
  · unfold strLtB at h hb
    have := lexLt_trans _ _ _ h hb
    rw [lexLt_irrefl] at this
    exact absurd this (by simp)

theorem strLeB_trans {a b c : String} (h1 : strLeB a b = true) (h2 : strLeB b c = true) :
    strLeB a c = true := by
  unfold strLeB at h1 h2 ⊢
  rw [Bool.not_eq_true'] at h1 h2 ⊢
  unfold strLtB at h1 h2 ⊢
  exact lexLt_le_trans _ _ _ h1 h2

theorem strLeB_refl (a : String) : strLeB a a = true := by
  unfold strLeB strLtB
  rw [lexLt_irrefl]
  rfl

theorem foldlMax_mem : ∀ (t : List String) (a : String),
    t.foldl (fun x y => if strLtB x y then y else x) a ∈ a :: t := by
  intro t
  induction t with
  | nil => intro a; simp
  | cons b t ih =>
    intro a
    rw [List.foldl_cons]
    rcases List.mem_cons.mp (ih (if strLtB a b then b else a)) with he | ht
    · rw [he]
      split <;> simp
    · simp [List.mem_cons, ht]

theorem foldlMax_ub : ∀ (t : List String) (a x : String), x ∈ a :: t →
    strLeB x (t.foldl (fun u v => if strLtB u v then v else u) a) = true := by
  intro t
  induction t with
  | nil =>
    intro a x hx
    rw [List.mem_singleton] at hx
    subst hx
    exact strLeB_refl x
  | cons b t ih =>
    intro a x hx
    rw [List.foldl_cons]
    rcases List.mem_cons.mp hx with rfl | hx2
    · have h1 : strLeB x (if strLtB x b then b else x) = true := by
        split
        · next hlt => unfold strLeB; rw [strLtB_asymm hlt]; rfl
        · exact strLeB_refl x
      exact strLeB_trans h1 (ih _ _ (List.mem_cons_self _ _))
    · rcases List.mem_cons.mp hx2 with rfl | hx3
      · have h1 : strLeB x (if strLtB a x then x else a) = true := by
          split
          · exact strLeB_refl x
          · next hlt =>
              unfold strLeB
              rw [Bool.eq_false_iff.mpr hlt]
              rfl
        exact strLeB_trans h1 (ih _ _ (List.mem_cons_self _ _))
      · exact ih _ _ (List.mem_cons_of_mem _ hx3)

/-- C4: BaseAPMCScraper.run's resume stage — with no watermark nothing is
filtered; with a (nonempty) watermark w, exactly the rows whose priceDate is
lexicographically at most w are dropped; and when any row survives, the value
persisted for the commodity (the max over the surviving rows' dates) is a
surviving row's priceDate, bounds every surviving date from above, and is
strictly greater than the prior watermark, so the watermark never regresses. -/
theorem c4_resume_filter_ok :
    ∀ (w : String) (rows : List FetchedRow),
      w ≠ "" →
      (∀ r ∈ rows, r.price_date ≠ none ∧ r.price_date ≠ some "") →
      (resumeFilter none rows = rows ∧
       resumeFilter (some w) rows =
         rows.filter (fun r => !(strLeB (r.price_date.getD "") w)) ∧
       (resumeFilter (some w) rows ≠ [] →
         (∃ r ∈ resumeFilter (some w) rows,
             r.price_date = some (newestOf (resumeFilter (some w) rows))) ∧
         (∀ r ∈ resumeFilter (some w) rows,
             strLeB (r.price_date.getD "") (newestOf (resumeFilter (some w) rows)) = true) ∧
         strLtB w (newestOf (resumeFilter (some w) rows)) = true)) := by
  intro w rows hw hd
  have hfil : resumeFilter (some w) rows = rows.filter
      (fun r => match r.price_date with | some d => d != "" && strLtB w d | none => false) := by
    simp only [resumeFilter]
    rw [if_neg hw]
  refine ⟨rfl, ?_, ?_⟩
  · rw [hfil]
    apply List.filter_congr
    intro r hr
    obtain ⟨h1, h2⟩ := hd r hr
    cases hpd : r.price_date with
    | none => exact absurd hpd h1
    | some dstr =>
      have hne : dstr ≠ "" := fun he => h2 (by rw [hpd, he])
      unfold strLeB
      rw [Bool.not_not, Option.getD_some]
      simp [bne_iff_ne, hne]
  · intro hne
    obtain ⟨s, t, hst⟩ := List.exists_cons_of_ne_nil hne
    have hmap : (resumeFilter (some w) rows).map (fun r => r.price_date.getD "") =
        (s.price_date.getD "") :: t.map (fun r => r.price_date.getD "") := by
      rw [hst]
      rfl
    have hnew : newestOf (resumeFilter (some w) rows) =
        (t.map (fun r => r.price_date.getD "")).foldl
          (fun u v => if strLtB u v then v else u) (s.price_date.getD "") := by
      unfold newestOf
      rw [hmap]
      rfl
    have hmem := foldlMax_mem (t.map fun r => r.price_date.getD "") (s.price_date.getD "")
    rw [← hnew, ← hmap] at hmem
    obtain ⟨r0, hr0S, hr0d⟩ := List.mem_map.mp hmem
    have hr0rows : r0 ∈ rows := by
      rw [hfil] at hr0S
      exact (List.mem_filter.mp hr0S).1
    obtain ⟨hh1, hh2⟩ := hd r0 hr0rows
    cases hpd : r0.price_date with
    | none => exact absurd hpd hh1
    | some d0 =>
      have hd0 : d0 = newestOf (resumeFilter (some w) rows) := by
        rw [hpd] at hr0d
        simpa using hr0d
      refine ⟨⟨r0, hr0S, by rw [hpd, hd0]⟩, ?_, ?_⟩
      · intro r hrS
        have hmm : (r.price_date.getD "") ∈
            ((resumeFilter (some w) rows).map fun r => r.price_date.getD "") :=
          List.mem_map_of_mem _ hrS
        rw [hmap] at hmm
        have := foldlMax_ub _ _ _ hmm
        rw [← hnew] at this
        exact this
      · have hr0S2 := hr0S
        rw [hfil] at hr0S2
        have hpred := (List.mem_filter.mp hr0S2).2
        simp only [hpd] at hpred
        rw [Bool.and_eq_true] at hpred
        rw [← hd0]
        exact hpred.2

/-- C4 witness: watermark 2025-12-10 against rows dated 2025-12-09/10/11 —
only the 2025-12-11 row survives and the watermark advances to 2025-12-11. -/
theorem c4_resume_filter_witness :
    resumeFilter (some "2025-12-10") exRows4 = [frOf "2025-12-11"] ∧
    newestOf (resumeFilter (some "2025-12-10") exRows4) = "2025-12-11" ∧
    strLtB "2025-12-10" (newestOf (resumeFilter (some "2025-12-10") exRows4)) = true := by
  have h := c4_resume_filter_ok "2025-12-10" exRows4 (by decide) (by decide)
  exact ⟨by decide, by decide, (h.2.2 (by decide)).2.2⟩

/-! ### Symbolic evaluation of parse_date_string on zero-padded DD/MM/YYYY input -/

theorem digitChar_isDigit {n : Nat} (h : n < 10) : (digitChar n).isDigit = true := by
  interval_cases n <;> rfl

theorem digVal_digitChar {n : Nat} (h : n < 10) : digVal (digitChar n) = n := by
  interval_cases n <;> rfl

theorem digitChar_not_ws {n : Nat} (h : n < 10) : isWsChar (digitChar n) = false := by
  interval_cases n <;> rfl

theorem wordBoundary_digitChar {n : Nat} (h : n < 10) (r : List Char) :
    wordBoundary (digitChar n :: r) = false := by
  interval_cases n <;> rfl

theorem sepP_digitChar {n : Nat} (h : n < 10) (r : List Char) :
    sepP (digitChar n :: r) = none := by
  interval_cases n <;> rfl

theorem sepP_slash (r : List Char) : sepP ('/' :: r) = some r := rfl

theorem digits1_digitChar {a : Nat} (ha : a < 10) (r : List Char) :
    digits1 (digitChar a :: r) = some (a, r) := by
  show (if (digitChar a).isDigit = true then some (digVal (digitChar a), r) else none) = _
  rw [if_pos (digitChar_isDigit ha), digVal_digitChar ha]

theorem digits2_digitChar {a b : Nat} (ha : a < 10) (hb : b < 10) (r : List Char) :
    digits2 (digitChar a :: digitChar b :: r) = some (10 * a + b, r) := by
  show (if (digitChar a).isDigit = true ∧ (digitChar b).isDigit = true then
      some (10 * digVal (digitChar a) + digVal (digitChar b), r) else none) = _
  rw [if_pos ⟨digitChar_isDigit ha, digitChar_isDigit hb⟩, digVal_digitChar ha,
    digVal_digitChar hb]

theorem digits4_digitChar {a b c d : Nat} (ha : a < 10) (hb : b < 10) (hc : c < 10)
    (hd : d < 10) (r : List Char) :
    digits4 (digitChar a :: digitChar b :: digitChar c :: digitChar d :: r) =
      some (1000 * a + 100 * b + 10 * c + d, r) := by
  show (if (digitChar a).isDigit = true ∧ (digitChar b).isDigit = true ∧
      (digitChar c).isDigit = true ∧ (digitChar d).isDigit = true then
      some (1000 * digVal (digitChar a) + 100 * digVal (digitChar b) +
        10 * digVal (digitChar c) + digVal (digitChar d), r) else none) = _
  rw [if_pos ⟨digitChar_isDigit ha, digitChar_isDigit hb, digitChar_isDigit hc,
    digitChar_isDigit hd⟩, digVal_digitChar ha, digVal_digitChar hb, digVal_digitChar hc,
    digVal_digitChar hd]

theorem fmtDMY_data (d m y : Nat) :
    (fmtDMY d m y).data =
      digitChar (d / 10) :: digitChar (d % 10) :: '/' :: digitChar (m / 10) ::
      digitChar (m % 10) :: '/' :: digitChar (y / 1000) :: digitChar (y / 100 % 10) ::
      digitChar (y / 10 % 10) :: digitChar (y % 10) :: [] := rfl

theorem clause1At_fmt {d m y : Nat} (hd : d ≤ 99) (hm : m ≤ 99) (hy : y ≤ 9999) :
    clause1At (digitChar (d / 10) :: digitChar (d % 10) :: '/' :: digitChar (m / 10) ::
      digitChar (m % 10) :: '/' :: digitChar (y / 1000) :: digitChar (y / 100 % 10) ::
      digitChar (y / 10 % 10) :: digitChar (y % 10) :: []) = some (d, m, y) := by
  have ed : 10 * (d / 10) + d % 10 = d := by omega
  have em : 10 * (m / 10) + m % 10 = m := by omega
  have ey : 1000 * (y / 1000) + 100 * (y / 100 % 10) + 10 * (y / 10 % 10) + y % 10 = y := by
    omega
  unfold clause1At clause1AfterDay clause1Mon clause1AfterMon clause1Year
  simp only [digits2_digitChar (by omega : d / 10 < 10) (by omega : d % 10 < 10), ed,
    sepP_slash,
    digits2_digitChar (by omega : m / 10 < 10) (by omega : m % 10 < 10), em,
    digits4_digitChar (by omega : y / 1000 < 10) (by omega : y / 100 % 10 < 10)
      (by omega : y / 10 % 10 < 10) (by omega : y % 10 < 10), ey, alt]

theorem search1_fmt {d m y : Nat} (hd : d ≤ 99) (hm : m ≤ 99) (hy : y ≤ 9999) :
    search1 (digitChar (d / 10) :: digitChar (d % 10) :: '/' :: digitChar (m / 10) ::
      digitChar (m % 10) :: '/' :: digitChar (y / 1000) :: digitChar (y / 100 % 10) ::
      digitChar (y / 10 % 10) :: digitChar (y % 10) :: []) = some (d, m, y) := by
  rw [search1, clause1At_fmt hd hm hy]
  rfl

theorem dropWhile_eq_self {p : Char → Bool} {l : List Char} (h : ∀ c ∈ l, p c = false) :
    l.dropWhile p = l := by
  cases l with
  | nil => rfl
  | cons a t => simp [List.dropWhile_cons, h a (List.mem_cons_self a t)]

theorem trimList_eq_self {l : List Char} (h : ∀ c ∈ l, isWsChar c = false) :
    trimList l = l := by
  unfold trimList
  rw [dropWhile_eq_self h, dropWhile_eq_self (fun c hc => h c (List.mem_reverse.mp hc)),
    List.reverse_reverse]

theorem fmt_chars_not_ws {d m y : Nat} (hd : d ≤ 99) (hm : m ≤ 99) (hy : y ≤ 9999) :
    ∀ c ∈ (digitChar (d / 10) :: digitChar (d % 10) :: '/' :: digitChar (m / 10) ::
      digitChar (m % 10) :: '/' :: digitChar (y / 1000) :: digitChar (y / 100 % 10) ::
      digitChar (y / 10 % 10) :: digitChar (y % 10) :: []), isWsChar c = false := by
  intro c hc
  simp only [List.mem_cons, List.not_mem_nil, or_false] at hc
  rcases hc with rfl | rfl | rfl | rfl | rfl | rfl | rfl | rfl | rfl | rfl
  · exact digitChar_not_ws (by omega)
  · exact digitChar_not_ws (by omega)
  · rfl
  · exact digitChar_not_ws (by omega)
  · exact digitChar_not_ws (by omega)
  · rfl
  · exact digitChar_not_ws (by omega)
  · exact digitChar_not_ws (by omega)
  · exact digitChar_not_ws (by omega)
  · exact digitChar_not_ws (by omega)

theorem fmtDMY_ne_empty (d m y : Nat) : fmtDMY d m y ≠ "" := by
  intro h
  have := congrArg String.data h
  rw [fmtDMY_data] at this
  simp at this

theorem parse_fmt_valid {d m y : Nat} (hd1 : 1 ≤ d) (hd : d ≤ 31) (hm1 : 1 ≤ m)
    (hm : m ≤ 12) (hy1 : 1000 ≤ y) (hy : y ≤ 9999) (hcal : d ≤ daysInMonth y m) :
    parse_date_string (fmtDMY d m y) = some (isoStr y m d) := by
  unfold parse_date_string
  rw [if_neg (fmtDMY_ne_empty d m y), fmtDMY_data,
    trimList_eq_self (fmt_chars_not_ws (by omega) (by omega) (by omega))]
  have hval : validDate y m d := ⟨by omega, by omega, hm1, hm, hd1, hcal⟩
  unfold pdsClause1
  rw [search1_fmt (by omega) (by omega) (by omega)]
  show alt (if validDate y m d then some (isoStr y m d) else none) _ = _
  rw [if_pos hval]
  rfl

theorem wsP_none {l : List Char} (h : ∀ c ∈ l, isWsChar c = false) : wsP l = none := by
  cases l with
  | nil => rfl
  | cons a t => simp [wsP, h a (List.mem_cons_self a t)]

theorem clause2At_none {l : List Char} (h : ∀ c ∈ l, isWsChar c = false) :
    clause2At l = none := by
  unfold clause2At clause2AfterDay
  cases l with
  | nil => rfl
  | cons a t =>
    cases t with
    | nil =>
      by_cases hd : a.isDigit = true <;> simp [digits2, digits1, hd, wsP, alt]
    | cons b t2 =>
      have hw2 : wsP t2 = none := wsP_none (fun x hx => h x (by simp [hx]))
      have hw1 : wsP (b :: t2) = none := wsP_none (fun x hx => h x (by
        simp only [List.mem_cons] at hx ⊢
        tauto))
      by_cases h2 : a.isDigit = true <;> by_cases h3 : b.isDigit = true <;>
        simp [digits2, digits1, h2, h3, hw1, hw2, alt]

theorem search2_none {l : List Char} (h : ∀ c ∈ l, isWsChar c = false) :
    search2 l = none := by
  induction l with
  | nil => rfl
  | cons c r ih =>
    rw [search2, clause2At_none h, ih (fun x hx => h x (List.mem_cons_of_mem c hx))]
    rfl

theorem sepP_digit {c : Char} (hc : c.isDigit = true) (r : List Char) :
    sepP (c :: r) = none := by
  show (if c = '/' ∨ c = '-' ∨ c = '.' then some r else none) = none
  rw [if_neg]
  rintro (rfl | rfl | rfl) <;> simp at hc

theorem wordBoundary_digit {c : Char} (hc : c.isDigit = true) (r : List Char) :
    wordBoundary (c :: r) = false := by
  show (!(c.isAlphanum || c == '_')) = false
  simp [Char.isAlphanum, hc]

theorem search3_fmt_none {a b c d e f g h : Char} (ha : a.isDigit = true)
    (hb : b.isDigit = true) (hc : c.isDigit = true) (hd : d.isDigit = true)
    (he : e.isDigit = true) (hf : f.isDigit = true) (hg : g.isDigit = true)
    (hh : h.isDigit = true) :
    search3 [a, b, '/', c, d, '/', e, f, g, h] = none := by
  have hsl : ('/' : Char).isDigit = false := rfl
  have hsn : sepP [] = none := rfl
  simp [search3, clause3At, clause3AfterDay, clause3Mon, clause3AfterMon, clause3Year,
    digits2, digits1, ha, hb, hc, hd, he, hf, hg, hh, hsl, hsn,
    sepP_digit, wordBoundary_digit, sepP_slash, alt]

theorem parse_fmt_invalid {d m y : Nat} (hd1 : 1 ≤ d) (hd : d ≤ 31) (hm1 : 1 ≤ m)
    (hm : m ≤ 12) (hy1 : 1000 ≤ y) (hy : y ≤ 9999) (hcal : daysInMonth y m < d) :
    parse_date_string (fmtDMY d m y) = none := by
  unfold parse_date_string
  rw [if_neg (fmtDMY_ne_empty d m y), fmtDMY_data,
    trimList_eq_self (fmt_chars_not_ws (by omega) (by omega) (by omega))]
  have hnval : ¬ validDate y m d := by
    unfold validDate
    rintro ⟨-, -, -, -, -, h6⟩
    omega
  unfold pdsClause1
  rw [search1_fmt (by omega) (by omega) (by omega)]
  show alt (if validDate y m d then some (isoStr y m d) else none) _ = _
  rw [if_neg hnval]
  unfold pdsClause2 pdsClause3
  rw [search2_none (fmt_chars_not_ws (by omega) (by omega) (by omega))]
  rw [search3_fmt_none (digitChar_isDigit (by omega)) (digitChar_isDigit (by omega))
    (digitChar_isDigit (by omega)) (digitChar_isDigit (by omega))
    (digitChar_isDigit (by omega)) (digitChar_isDigit (by omega))
    (digitChar_isDigit (by omega)) (digitChar_isDigit (by omega))]
  rfl

/-- C8: for every day, month and 4-digit year in range that form a valid
calendar date, parse_date_string on the zero-padded DD/MM/YYYY string
round-trips to the ISO YYYY-MM-DD form, and for every in-range combination
that is not a valid calendar date (such as 31/02/2024) it returns None
instead of raising. -/
theorem c8_date_roundtrip :
    (∀ d m y : Nat, 1 ≤ d → d ≤ 31 → 1 ≤ m → m ≤ 12 → 1000 ≤ y → y ≤ 9999 →
      d ≤ daysInMonth y m →
      parse_date_string (fmtDMY d m y) = some (isoStr y m d)) ∧
    (∀ d m y : Nat, 1 ≤ d → d ≤ 31 → 1 ≤ m → m ≤ 12 → 1000 ≤ y → y ≤ 9999 →
      daysInMonth y m < d →
      parse_date_string (fmtDMY d m y) = none) := by
  constructor
  · intro d m y h1 h2 h3 h4 h5 h6 h7
    exact parse_fmt_valid h1 h2 h3 h4 h5 h6 h7
  · intro d m y h1 h2 h3 h4 h5 h6 h7
    exact parse_fmt_invalid h1 h2 h3 h4 h5 h6 h7

/-- C8 witness: 15/12/2025 round-trips to 2025-12-15 and 31/02/2024 parses
to None, with the formatting helpers evaluated on those inputs. -/
theorem c8_date_roundtrip_witness :
    parse_date_string (fmtDMY 15 12 2025) = some (isoStr 2025 12 15) ∧
    parse_date_string (fmtDMY 31 2 2024) = none ∧
    fmtDMY 15 12 2025 = "15/12/2025" ∧ isoStr 2025 12 15 = "2025-12-15" ∧
    fmtDMY 31 2 2024 = "31/02/2024" := by
  have h := c8_date_roundtrip
  exact ⟨h.1 15 12 2025 (by decide) (by decide) (by decide) (by decide) (by decide)
      (by decide) (by decide),
    h.2 31 2 2024 (by decide) (by decide) (by decide) (by decide) (by decide)
      (by decide) (by decide),
    by decide, by decide, by decide⟩
